import Mathlib

/-!
Verification of the cooking-recommendation bot (`src/main.py`).

The Python source is shallowly embedded: text is modelled as `List Char`,
the in-memory per-user maps (`paid_users`, `free_attempts`,
`last_request_time`, `last_response_cache`) and the aiogram FSM session
become fields of an explicit `BotState`, timestamps become integers counted
in seconds, and every handler becomes a pure function from a state to a
pair of (messages sent, next state).  The dish catalog `dishes.py` is not
part of the sources, so every function that reads `DISHES` is parametrised
by the catalog list.
-/

/-- Text is modelled as a list of characters. -/
abbrev Str := List Char

/-- Turn a Lean string literal into the `Str` model of Python text. -/
def chars (s : String) : Str := s.data

/-- Does `p` occur as a contiguous substring of `t`?  Models Python `p in t`. -/
def strHasSub (t p : Str) : Bool :=
  match t with
  | [] => p.isPrefixOf ([] : Str)
  | c :: rest => p.isPrefixOf (c :: rest) || strHasSub rest p

/-- Python `str.lower` restricted to the alphabets the bot uses:
ASCII letters and the Cyrillic block А-Я (plus Ё). -/
def charLower (c : Char) : Char :=
  if 'A' ≤ c ∧ c ≤ 'Z' then Char.ofNat (c.toNat + 32)
  else if 'А' ≤ c ∧ c ≤ 'Я' then Char.ofNat (c.toNat + 32)
  else if c = 'Ё' then 'ё'
  else c

/-- Lowercasing of a whole text, `text.lower()`. -/
def strLower (t : Str) : Str := t.map charLower

/-- Remove the first occurrence of `pat` from `s`: Python `s.replace(pat, "", 1)`. -/
def replaceFirst (s pat : Str) : Str :=
  match s with
  | [] => []
  | c :: rest => if pat.isPrefixOf (c :: rest) then (c :: rest).drop pat.length
                 else c :: replaceFirst rest pat

/-- Decimal rendering of a number, Python `f-string` interpolation of an int. -/
def natStr (n : Nat) : Str := (Nat.repr n).data

/-- Python `f-string` interpolation of a bool: `True` / `False`. -/
def boolStr (b : Bool) : Str := if b then chars "True" else chars "False"

-- Literal texts of `src/main.py`, in source order.
def startText : Str := chars "👨‍🍳 Привет! Я помогу решить, что приготовить — с рецептами и учётом ваших предпочтений.\n\nПросто напишите:\n• «что приготовить на ужин?»\n• «рецепт на завтрак»\n• «что сделать в 19:00?»\n\nПервый раз — бесплатно. Потом — 299 ₽ навсегда."
def waitText : Str := chars "⏳ Подождите 1 минуту между запросами."
def upsellText : Str := chars "🔓 Разблокируйте полный доступ за 299 ₽ — навсегда!"
def healthQText : Str := chars "Вы на правильном питании?"
def dietQText : Str := chars "А что предпочитаете?"
def ideasHeader : Str := chars "Вот идеи с рецептами:\n\n"
def upsellSuffix : Str := chars "✨ Больше рецептов — за 299 ₽ навсегда!"
def alreadyPaidText : Str := chars "Уже оплачено!"
def grantedText : Str := chars "✅ Доступ навсегда активирован!\n\nТеперь вы можете писать мне сколько угодно. Попробуйте:"
def strAny : Str := chars "any"
def strBreakfast : Str := chars "breakfast"
def strLunch : Str := chars "lunch"
def strDinner : Str := chars "dinner"
def strBars : Str := chars "||"
def cacheMark : Str := chars "КЭШ:"

/-- `get_time_category` of `src/main.py`. -/
def get_time_category (hour : Nat) : Str :=
  if 5 ≤ hour ∧ hour < 10 then strBreakfast
  else if 10 ≤ hour ∧ hour < 18 then strLunch
  else strDinner

def morningKws : List Str :=
  [chars "утро", chars "завтрак", chars "утром", chars "с утра", chars "рано",
   chars "8", chars "9"]

def middayKws : List Str :=
  [chars "обед", chars "днём", chars "днем", chars "10", chars "11", chars "12",
   chars "13", chars "14", chars "15", chars "16", chars "17"]

def eveningKws : List Str :=
  [chars "ужин", chars "вечер", chars "ночь", chars "сейчас", chars "поздно",
   chars "18", chars "19", chars "20", chars "21", chars "22", chars "23",
   chars "0", chars "1", chars "2", chars "3", chars "4", chars "5",
   chars "6", chars "7"]

/-- `any(w in text for w in kws)`. -/
def kwHit (kws : List Str) (t : Str) : Bool := kws.any (fun w => strHasSub t w)

/-- First 1-2 digit number embedded in the text: `re.search(r'(\d{1,2})', text)`. -/
def findNum : Str → Option Nat
  | [] => none
  | c :: rest =>
    if c.isDigit then
      match rest with
      | d :: _ => if d.isDigit then some ((c.toNat - 48) * 10 + (d.toNat - 48))
                  else some (c.toNat - 48)
      | [] => some (c.toNat - 48)
    else findNum rest

/-- `parse_hour_from_text` of `src/main.py`; `nowHour` is `datetime.now().hour`. -/
def parse_hour_from_text (text : Str) (nowHour : Nat) : Nat :=
  let t := strLower text
  if kwHit morningKws t then 8
  else if kwHit middayKws t then 13
  else if kwHit eveningKws t then 19
  else match findNum t with
       | some h => if h ≤ 23 then h else nowHour
       | none => nowHour

/-- One entry of the catalog `DISHES` (the file `dishes.py` itself is not in
the sources, so the catalog stays a parameter everywhere). -/
structure Dish where
  name : Str
  recipe : Str
  time : Str
  healthy : Bool
  diet : Str
deriving DecidableEq

/-- The exact-match predicate of the first list comprehension in `filter_dishes`. -/
def exactPred (tc : Str) (healthy : Bool) (diet : Str) (d : Dish) : Prop :=
  d.time = tc ∧ d.healthy = healthy ∧ (diet = strAny ∨ d.diet = diet)

instance (tc : Str) (healthy : Bool) (diet : Str) (d : Dish) :
    Decidable (exactPred tc healthy diet d) := by
  unfold exactPred; infer_instance

/-- The first list comprehension of `filter_dishes`: exact matches, in
catalog order. -/
def exactMatches (DISHES : List Dish) (hour : Nat) (healthy : Bool)
    (diet : Str) : List Dish :=
  DISHES.filter (fun d => decide (exactPred (get_time_category hour) healthy diet d))

/-- The `fallback` comprehension of `filter_dishes`: dishes of the slot that
are not already among the exact matches, in catalog order. -/
def slotFallback (DISHES : List Dish) (hour : Nat) (healthy : Bool)
    (diet : Str) : List Dish :=
  DISHES.filter (fun d => decide (d.time = get_time_category hour ∧
    d ∉ exactMatches DISHES hour healthy diet))

/-- `filter_dishes` of `src/main.py`, parametrised by the catalog. -/
def filter_dishes (DISHES : List Dish) (hour : Nat) (healthy : Bool) (diet : Str) :
    List Dish :=
  (if (exactMatches DISHES hour healthy diet).length < 3 then
      exactMatches DISHES hour healthy diet ++ slotFallback DISHES hour healthy diet
    else exactMatches DISHES hour healthy diet).take 3

/-- aiogram FSM state labels of `UserPreferences`. -/
inductive FsmTag where
  | askingHealth
  | askingDiet
deriving DecidableEq

/-- One user's FSM context: the state label plus the data dictionary keys
`healthy`, `diet`, `pending_hour` used by the handlers. -/
structure Session where
  tag : Option FsmTag
  healthy : Option Bool
  diet : Option Str
  pendingHour : Option Nat
deriving DecidableEq

def emptySession : Session := ⟨none, none, none, none⟩

/-- The whole in-memory state of the bot process: the four module-level maps
of `src/main.py` plus the per-user FSM storage.  Timestamps are seconds. -/
structure BotState where
  paid : Nat → Bool
  free : Nat → Option Nat
  lastReq : Nat → Option Int
  cache : Nat → Option (Str × Int)
  session : Nat → Session

/-- Point update of a user-keyed map (Python dict assignment / `set.add`). -/
def upd {α : Type} (f : Nat → α) (u : Nat) (v : α) : Nat → α :=
  fun x => if x = u then v else f x

/-- `free_attempts.get(user_id, 0)`. -/
def getFree (s : BotState) (u : Nat) : Nat := (s.free u).getD 0

def initState : BotState :=
  { paid := fun _ => false, free := fun _ => none, lastReq := fun _ => none,
    cache := fun _ => none, session := fun _ => emptySession }

/-- `is_rate_limited` of `src/main.py`: returns the flag and the updated
`last_request_time` map (it records `now` only on the allow path). -/
def isRateLimited (u : Nat) (now : Int) (lr : Nat → Option Int) :
    Bool × (Nat → Option Int) :=
  match lr u with
  | some t => if now - t < 60 then (true, lr) else (false, upd lr u (some now))
  | none => (false, upd lr u (some now))

/-- Cache key `f"{hour}_{healthy}_{diet}"`. -/
def mkKey (hour : Nat) (healthy : Bool) (diet : Str) : Str :=
  natStr hour ++ ['_'] ++ boolStr healthy ++ ['_'] ++ diet

/-- The string stored in `last_response_cache`: `f"КЭШ:{cache_key}||{reply}"`. -/
def mkStored (hour : Nat) (healthy : Bool) (diet : Str) (reply : Str) : Str :=
  cacheMark ++ mkKey hour healthy diet ++ strBars ++ reply

/-- The cache consultation of lines 164-169 of `src/main.py`, for one cached
entry `(resp, producedAt)`: a hit returns the reply with the marker prefix
removed, a miss returns `none`. -/
def cacheProbe (entry : Str × Int) (key : Str) (now : Int) : Option Str :=
  if now - entry.2 < 300 ∧ (cacheMark ++ key).isPrefixOf entry.1 = true then
    some (replaceFirst entry.1 (cacheMark ++ key ++ strBars))
  else none

/-- Reply text built from the selected dishes (lines 175-177). -/
def renderReply (ds : List Dish) : Str :=
  ds.foldl (fun acc d => acc ++ chars "🔥 " ++ d.name ++ chars "\n" ++ d.recipe
                             ++ chars "\n\n") ideasHeader

/-- Lines 171-184: selection with the one-shot universal fallback, reply
rendering, and the upsell-suffix / cache-store split on entitlement. -/
def missReply (DISHES : List Dish) (hour : Nat) (u : Nat) (now : Int)
    (healthy : Bool) (diet : Str) (s : BotState) : Str × BotState :=
  let ds0 := filter_dishes DISHES hour healthy diet
  let ds := if ds0 = [] then (filter_dishes DISHES hour true strAny).take 3 else ds0
  let reply := renderReply ds
  if s.paid u = true then
    let c := upd s.cache u (some (mkStored hour healthy diet reply, now))
    (reply, { s with cache := c })
  else (reply ++ upsellSuffix, s)

/-- Lines 160-184: the part of the flow with resolved preferences — cache
lookup for entitled users, then `missReply`. -/
def resolvedReply (DISHES : List Dish) (hour : Nat) (u : Nat) (now : Int)
    (healthy : Bool) (diet : Str) (s : BotState) : Str × BotState :=
  if s.paid u = true then
    match s.cache u with
    | some entry =>
      match cacheProbe entry (mkKey hour healthy diet) now with
      | some rep => (rep, s)
      | none => missReply DISHES hour u now healthy diet s
    | none => missReply DISHES hour u now healthy diet s
  else missReply DISHES hour u now healthy diet s

/-- Lines 154-158: preference elicitation — ask the health question, move the
session to `asking_health` and remember the pending hour. -/
def askHealth (u : Nat) (hour : Nat) (s : BotState) : BotState :=
  let sess := { s.session u with tag := some FsmTag.askingHealth,
                                 pendingHour := some hour }
  { s with session := upd s.session u sess }

/-- Lines 150-184 of `handle_cooking_internal` after the quota gate. -/
def afterQuota (DISHES : List Dish) (hour : Nat) (u : Nat) (now : Int)
    (s : BotState) : Str × BotState :=
  match (s.session u).healthy, (s.session u).diet with
  | some healthy, some diet => resolvedReply DISHES hour u now healthy diet s
  | some _, none => (healthQText, askHealth u hour s)
  | none, some _ => (healthQText, askHealth u hour s)
  | none, none => (healthQText, askHealth u hour s)

/-- `handle_cooking_internal` of `src/main.py`: rate-limit gate, quota gate
with free-attempt consumption, then `afterQuota`.  Returns the single reply
text sent and the next state. -/
def handleCookingInternal (DISHES : List Dish) (hour : Nat) (u : Nat)
    (now : Int) (s : BotState) : Str × BotState :=
  let rl := isRateLimited u now s.lastReq
  let s1 : BotState := { s with lastReq := rl.2 }
  if rl.1 = true then (waitText, s1)
  else if s1.paid u = false ∧ 1 ≤ getFree s1 u then (upsellText, s1)
  else
    afterQuota DISHES hour u now
      (if s1.paid u = false then
        { s1 with free := upd s1.free u (some (getFree s1 u + 1)) }
       else s1)

/-- `process_health`: store the health answer, ask the diet question, move to
`asking_diet`.  Only dispatched in state `asking_health`. -/
def processHealth (u : Nat) (yes : Bool) (s : BotState) : List Str × BotState :=
  let sess := { s.session u with healthy := some yes, tag := some FsmTag.askingDiet }
  ([dietQText], { s with session := upd s.session u sess })

/-- `process_diet`: store the diet answer, replay the core flow on the pending
hour, then clear the whole session.  Only dispatched in state `asking_diet`. -/
def processDiet (DISHES : List Dish) (u : Nat) (diet : Str) (now : Int)
    (nowHour : Nat) (s : BotState) : List Str × BotState :=
  let s1 : BotState :=
    { s with session := upd s.session u { s.session u with diet := some diet } }
  let hour := ((s1.session u).pendingHour).getD nowHour
  let r := handleCookingInternal DISHES hour u now s1
  ([r.1], { r.2 with session := upd r.2.session u emptySession })

/-- `buy_access`: idempotent entitlement grant. -/
def buyAccessStep (u : Nat) (s : BotState) : List Str × BotState :=
  if s.paid u = true then ([alreadyPaidText], s)
  else ([grantedText],
        { s with paid := upd s.paid u true,
                 free := upd s.free u none,
                 cache := upd s.cache u none })

inductive SuggestBtn where
  | breakfast
  | lunch
  | dinner
deriving DecidableEq

def suggestHour : SuggestBtn → Nat
  | .breakfast => 8
  | .lunch => 13
  | .dinner => 19

inductive DietBtn where
  | meat
  | fish
  | veg
deriving DecidableEq

def dietStr : DietBtn → Str
  | .meat => chars "meat"
  | .fish => chars "fish"
  | .veg => chars "veg"

/-- The callback payloads registered on the router. -/
inductive CallbackData where
  | suggest (b : SuggestBtn)
  | healthy (yes : Bool)
  | dietBtn (d : DietBtn)
  | buyAccess
deriving DecidableEq

/-- Callback dispatch in router registration order; the state filters of
`process_health` / `process_diet` are part of the registered filters, and a
callback matching no handler is dropped without any output or state change. -/
def dispatchCallback (DISHES : List Dish) (cd : CallbackData) (u : Nat)
    (now : Int) (nowHour : Nat) (s : BotState) : List Str × BotState :=
  match cd with
  | .suggest b =>
    let r := handleCookingInternal DISHES (suggestHour b) u now s
    ([r.1], r.2)
  | .healthy yes =>
    if (s.session u).tag = some FsmTag.askingHealth then processHealth u yes s
    else ([], s)
  | .dietBtn d =>
    if (s.session u).tag = some FsmTag.askingDiet then
      processDiet DISHES u (dietStr d) now nowHour s
    else ([], s)
  | .buyAccess => buyAccessStep u s

/-- An inbound event: a text message or a button callback. -/
inductive Event where
  | msg (u : Nat) (text : Str)
  | cb (u : Nat) (cd : CallbackData)

/-- One dispatcher step: `/start` is answered by `cmd_start`, any other text
goes through `handle_cooking_query`, callbacks through the callback router. -/
def step (DISHES : List Dish) (e : Event) (now : Int) (nowHour : Nat)
    (s : BotState) : List Str × BotState :=
  match e with
  | .msg u text =>
    if (chars "/start").isPrefixOf text then ([startText], s)
    else
      let r := handleCookingInternal DISHES (parse_hour_from_text text nowHour)
                 u now s
      ([r.1], r.2)
  | .cb u cd => dispatchCallback DISHES cd u now nowHour s

/-! ## Shared lemmas -/

theorem isRateLimited_limited (u : Nat) (now : Int) (lr : Nat → Option Int)
    (t : Int) (ht : lr u = some t) (hlt : now - t < 60) :
    isRateLimited u now lr = (true, lr) := by
  unfold isRateLimited
  rw [ht]
  simp [hlt]

theorem isRateLimited_allowed (u : Nat) (now : Int) (lr : Nat → Option Int)
    (h : ∀ t, lr u = some t → 60 ≤ now - t) :
    isRateLimited u now lr = (false, upd lr u (some now)) := by
  unfold isRateLimited
  cases hu : lr u with
  | none => rfl
  | some t =>
    have := h t hu
    simp
    omega

theorem missReply_frame (D : List Dish) (hour u : Nat) (now : Int)
    (healthy : Bool) (diet : Str) (s : BotState) :
    (missReply D hour u now healthy diet s).2.paid = s.paid
    ∧ (missReply D hour u now healthy diet s).2.free = s.free
    ∧ (missReply D hour u now healthy diet s).2.lastReq = s.lastReq := by
  unfold missReply
  dsimp only
  split
  · exact ⟨rfl, rfl, rfl⟩
  · exact ⟨rfl, rfl, rfl⟩

theorem resolvedReply_frame (D : List Dish) (hour u : Nat) (now : Int)
    (healthy : Bool) (diet : Str) (s : BotState) :
    (resolvedReply D hour u now healthy diet s).2.paid = s.paid
    ∧ (resolvedReply D hour u now healthy diet s).2.free = s.free
    ∧ (resolvedReply D hour u now healthy diet s).2.lastReq = s.lastReq := by
  unfold resolvedReply
  split
  · split
    · split
      · exact ⟨rfl, rfl, rfl⟩
      · exact missReply_frame D hour u now healthy diet s
    · exact missReply_frame D hour u now healthy diet s
  · exact missReply_frame D hour u now healthy diet s

theorem afterQuota_frame (D : List Dish) (hour u : Nat) (now : Int) (s : BotState) :
    (afterQuota D hour u now s).2.paid = s.paid
    ∧ (afterQuota D hour u now s).2.free = s.free
    ∧ (afterQuota D hour u now s).2.lastReq = s.lastReq := by
  unfold afterQuota
  split
  · exact resolvedReply_frame D hour u now _ _ s
  · exact ⟨rfl, rfl, rfl⟩
  · exact ⟨rfl, rfl, rfl⟩
  · exact ⟨rfl, rfl, rfl⟩

/-! ## C4: hour-to-slot partition -/

/-- C4: for every hour in [0,23], `get_time_category` returns exactly one of
breakfast/lunch/dinner, with [5,10) mapping to breakfast, [10,18) to lunch
and every other hour to dinner; the three ranges partition 0-23 with no gap
and no overlap. -/
theorem hourToSlot_partition :
    (strBreakfast ≠ strLunch ∧ strBreakfast ≠ strDinner ∧ strLunch ≠ strDinner)
    ∧ ∀ h : Nat, h < 24 →
      (get_time_category h = strBreakfast ∨ get_time_category h = strLunch ∨
        get_time_category h = strDinner)
      ∧ (get_time_category h = strBreakfast ↔ 5 ≤ h ∧ h < 10)
      ∧ (get_time_category h = strLunch ↔ 10 ≤ h ∧ h < 18)
      ∧ (get_time_category h = strDinner ↔ h < 5 ∨ 18 ≤ h) := by
  decide

/-! ## C3: evening keyword precedence in `parse_hour_from_text` -/

/-- C3 counterexample: the text `"18"` mentions the hour 18 (and indeed
contains a member of the evening keyword set), yet `parse_hour_from_text`
returns 8, not 19: the morning branch fires first because the digit "8" is
a substring of "18" and sits in the morning keyword list. -/
theorem parseHour_evening_counterexample :
    kwHit eveningKws (strLower (chars "18")) = true
    ∧ parse_hour_from_text (chars "18") 0 = 8
    ∧ (8 : Nat) ≠ 19 := by
  decide

/-- C3 amended: the keyword branches do short-circuit before digit
extraction, in the fixed order morning, midday, evening; consequently a text
hitting the evening set yields 19 only if it hits neither the morning set
nor the midday set (each of which contains digit strings, so a digit present
in the text can divert the result). -/
theorem parseHour_keyword_precedence (text : Str) (nowHour : Nat) :
    (kwHit morningKws (strLower text) = true →
       parse_hour_from_text text nowHour = 8)
    ∧ (kwHit morningKws (strLower text) = false →
       kwHit middayKws (strLower text) = true →
       parse_hour_from_text text nowHour = 13)
    ∧ (kwHit morningKws (strLower text) = false →
       kwHit middayKws (strLower text) = false →
       kwHit eveningKws (strLower text) = true →
       parse_hour_from_text text nowHour = 19) := by
  unfold parse_hour_from_text
  refine ⟨fun h1 => ?_, fun h1 h2 => ?_, fun h1 h2 h3 => ?_⟩
  · simp [h1]
  · simp [h1, h2]
  · simp [h1, h2, h3]

/-- Witness for the amended C3 at a concrete evening text. -/
theorem parseHour_keyword_precedence_witness :
    parse_hour_from_text (chars "ужин") 5 = 19 :=
  (parseHour_keyword_precedence (chars "ужин") 5).2.2 (by decide) (by decide)
    (by decide)

/-- Witness for C4 at hour 7. -/
theorem hourToSlot_partition_witness :
    get_time_category 7 = strBreakfast ∧ (5 ≤ 7 ∧ 7 < 10) :=
  ⟨(hourToSlot_partition.2 7 (by decide)).2.1.mpr (by decide), by decide⟩

/-! ## C5: dish selector bound, order and fallback -/

theorem exactMatches_sub_slot (D : List Dish) (hour : Nat) (healthy : Bool)
    (diet : Str) (d : Dish) (hd : d ∈ exactMatches D hour healthy diet) :
    d.time = get_time_category hour := by
  unfold exactMatches at hd
  rw [List.mem_filter] at hd
  exact (of_decide_eq_true hd.2).1

theorem exact_fallback_nodup (D : List Dish) (hour : Nat) (healthy : Bool)
    (diet : Str) (hnd : D.Nodup) :
    (exactMatches D hour healthy diet ++ slotFallback D hour healthy diet).Nodup := by
  refine List.Nodup.append (hnd.filter _) (hnd.filter _) ?_
  intro a ha hb
  unfold slotFallback at hb
  rw [List.mem_filter] at hb
  exact (of_decide_eq_true hb.2).2 ha

/-- C5: for every catalog without duplicate entries and every
(hour, healthy, diet), the selector returns at most 3 dishes, without
duplicates, as a block of exact matches in catalog order followed by a block
of slot-only fallback matches in catalog order; and it stops short of 3 only
when the catalog's slot entries are exhausted (every slot dish is in the
result). -/
theorem filter_dishes_spec (D : List Dish) (hour : Nat) (healthy : Bool)
    (diet : Str) (hnd : D.Nodup) :
    (filter_dishes D hour healthy diet).length ≤ 3
    ∧ (filter_dishes D hour healthy diet).Nodup
    ∧ (∃ a b, filter_dishes D hour healthy diet = a ++ b
        ∧ a <+: exactMatches D hour healthy diet
        ∧ b <+: slotFallback D hour healthy diet)
    ∧ ((filter_dishes D hour healthy diet).length < 3 →
        ∀ d ∈ D, d.time = get_time_category hour →
          d ∈ filter_dishes D hour healthy diet) := by
  unfold filter_dishes
  by_cases hlen : (exactMatches D hour healthy diet).length < 3
  · rw [if_pos hlen]
    have hexle : (exactMatches D hour healthy diet).length ≤ 3 := Nat.le_of_lt hlen
    have hsplit : (exactMatches D hour healthy diet ++
        slotFallback D hour healthy diet).take 3 =
        exactMatches D hour healthy diet ++
          (slotFallback D hour healthy diet).take
            (3 - (exactMatches D hour healthy diet).length) := by
      rw [List.take_append_eq_append_take, List.take_of_length_le hexle]
    refine ⟨?_, ?_, ?_, ?_⟩
    · rw [List.length_take]; exact min_le_left _ _
    · exact ((List.take_sublist _ _).nodup
        (exact_fallback_nodup D hour healthy diet hnd))
    · exact ⟨exactMatches D hour healthy diet,
        (slotFallback D hour healthy diet).take
          (3 - (exactMatches D hour healthy diet).length),
        hsplit, List.prefix_rfl, List.take_prefix _ _⟩
    · intro hshort d hd hslot
      rw [List.length_take] at hshort
      have hwhole : (exactMatches D hour healthy diet ++
          slotFallback D hour healthy diet).length < 3 := by omega
      rw [List.take_of_length_le (Nat.le_of_lt hwhole)]
      by_cases hdex : d ∈ exactMatches D hour healthy diet
      · exact List.mem_append_left _ hdex
      · refine List.mem_append_right _ ?_
        unfold slotFallback
        rw [List.mem_filter]
        exact ⟨hd, decide_eq_true ⟨hslot, hdex⟩⟩
  · rw [if_neg hlen]
    refine ⟨?_, ?_, ?_, ?_⟩
    · rw [List.length_take]; exact min_le_left _ _
    · exact ((List.take_sublist _ _).nodup (hnd.filter _))
    · exact ⟨(exactMatches D hour healthy diet).take 3, [], by simp,
        List.take_prefix _ _, List.nil_prefix⟩
    · intro hshort
      rw [List.length_take] at hshort
      omega

/-- Witness catalog for C5: two breakfast dishes and one lunch dish. -/
def witnessDishes : List Dish :=
  [⟨chars "Овсянка", chars "каша", chars "breakfast", true, chars "veg"⟩,
   ⟨chars "Яичница", chars "жарить", chars "breakfast", false, chars "meat"⟩,
   ⟨chars "Борщ", chars "варить", chars "lunch", false, chars "meat"⟩]

/-- Witness for C5 on a concrete catalog. -/
theorem filter_dishes_spec_witness :
    (filter_dishes witnessDishes 8 false (chars "meat")).length ≤ 3
    ∧ (filter_dishes witnessDishes 8 false (chars "meat")).Nodup :=
  ⟨(filter_dishes_spec witnessDishes 8 false (chars "meat") (by decide)).1,
   (filter_dishes_spec witnessDishes 8 false (chars "meat") (by decide)).2.1⟩

/-! ## C1: quota gate (corrected for the rate limiter) -/

/-- A state with one consumed free attempt and a request 30 seconds old. -/
def usedFreeRecentState : BotState :=
  { initState with free := upd initState.free 1 (some 1),
                   lastReq := upd initState.lastReq 1 (some 0) }

/-- C1 counterexample: a non-entitled user whose free-attempt count is 1
sends a cooking request 30 seconds after the previous one; the orchestrator
answers with the rate-limit wait notice, not with the upsell prompt — so the
2nd cooking request after 1 free use does not always yield mustPay. -/
theorem quota_guard_counterexample :
    usedFreeRecentState.paid 1 = false
    ∧ getFree usedFreeRecentState 1 = 1
    ∧ (handleCookingInternal [] 8 1 30 usedFreeRecentState).1 = waitText
    ∧ waitText ≠ upsellText := by
  decide

/-- C1 amended: for a non-entitled user, on a cooking request that passes the
rate limiter, a free-attempt count of at least 1 makes the orchestrator reply
with the upsell prompt and stop — the only state change is the recorded
request timestamp, so there is no preference elicitation, no selection and no
cache work — while a count of 0 is incremented to 1 as a side effect of
allowing the request; and with a free-attempt count of at least 1 the reply
is never anything but the wait notice or the upsell prompt. -/
theorem quota_guard (D : List Dish) (hour u : Nat) (now : Int) (s : BotState)
    (hpaid : s.paid u = false) :
    ((∀ t, s.lastReq u = some t → 60 ≤ now - t) →
       (1 ≤ getFree s u →
          handleCookingInternal D hour u now s =
            (upsellText, { s with lastReq := upd s.lastReq u (some now) }))
       ∧ (getFree s u = 0 →
          (handleCookingInternal D hour u now s).2.free u = some 1))
    ∧ (1 ≤ getFree s u →
        (handleCookingInternal D hour u now s).1 = waitText ∨
        (handleCookingInternal D hour u now s).1 = upsellText) := by
  constructor
  · intro hra
    have hrl : isRateLimited u now s.lastReq = (false, upd s.lastReq u (some now)) :=
      isRateLimited_allowed u now s.lastReq hra
    constructor
    · intro hfree
      unfold handleCookingInternal
      rw [hrl]
      simp only [Bool.false_eq_true, if_false]
      rw [if_pos ⟨hpaid, hfree⟩]
    · intro h0
      unfold handleCookingInternal
      rw [hrl]
      simp only [Bool.false_eq_true, if_false]
      have hng : ¬ (({ s with lastReq := upd s.lastReq u (some now) } : BotState).paid u
          = false ∧ 1 ≤ getFree { s with lastReq := upd s.lastReq u (some now) } u) := by
        intro hc
        have h2 : 1 ≤ getFree s u := hc.2
        omega
      rw [if_neg hng]
      rw [if_pos hpaid]
      rw [(afterQuota_frame D hour u now _).2.1]
      simp only [getFree] at h0
      simp [upd, getFree, h0]
  · intro hfree
    rcases hb : isRateLimited u now s.lastReq with ⟨b, lr⟩
    cases b with
    | true =>
      left
      unfold handleCookingInternal
      rw [hb]
      simp
    | false =>
      right
      unfold handleCookingInternal
      rw [hb]
      simp only [Bool.false_eq_true, if_false]
      rw [if_pos ⟨hpaid, hfree⟩]

/-- A state with one consumed free attempt and no recent request. -/
def usedFreeIdleState : BotState :=
  { initState with free := upd initState.free 1 (some 1) }

/-- Witness for the amended C1: with the free attempt consumed and no recent
request, the next cooking request is answered with the upsell prompt. -/
theorem quota_guard_witness :
    handleCookingInternal [] 8 1 0 usedFreeIdleState =
      (upsellText, { usedFreeIdleState with
                       lastReq := upd usedFreeIdleState.lastReq 1 (some 0) }) :=
  ((quota_guard [] 8 1 0 usedFreeIdleState rfl).1
    (fun t ht => Option.noConfusion ht)).1 (by decide)

/-! ## C8: rate limiting is checked first and is side-effect free -/

/-- C8: a request arriving less than 60 seconds after the user's recorded
previous request is answered with the wait notice and changes nothing at all
(no quota, session, cache or selection side effects, and the timestamp is not
advanced); a request passing the rate limiter gets the current time recorded
as the user's last-request timestamp. -/
theorem rate_limit_frame (D : List Dish) (hour u : Nat) (now : Int)
    (s : BotState) :
    (∀ t, s.lastReq u = some t → now - t < 60 →
       handleCookingInternal D hour u now s = (waitText, s))
    ∧ ((∀ t, s.lastReq u = some t → 60 ≤ now - t) →
       (handleCookingInternal D hour u now s).2.lastReq u = some now) := by
  constructor
  · intro t ht hlt
    unfold handleCookingInternal
    rw [isRateLimited_limited u now s.lastReq t ht hlt]
    rfl
  · intro hra
    unfold handleCookingInternal
    rw [isRateLimited_allowed u now s.lastReq hra]
    simp only [Bool.false_eq_true, if_false]
    split
    · simp [upd]
    · rw [(afterQuota_frame D hour u now _).2.2]
      split
      · simp [upd]
      · simp [upd]

/-- A state whose user 1 has a request recorded at time 0. -/
def recentReqState : BotState :=
  { initState with lastReq := upd initState.lastReq 1 (some 0) }

/-- Witness for C8: a second request 30 seconds after the first is answered
with the wait notice and leaves the state untouched. -/
theorem rate_limit_frame_witness :
    handleCookingInternal [] 8 1 30 recentReqState = (waitText, recentReqState) :=
  (rate_limit_frame [] 8 1 30 recentReqState).1 0 (by decide) (by decide)

/-! ## C6: entitlement grant is idempotent -/

/-- C6: `buy_access` is idempotent — for an already entitled user it only
signals "already granted" and changes nothing; otherwise it sets the
entitlement and clears the free-attempt count and the cached response (and
touches nothing else and no other user).  A second call leaves the state of
the first call unchanged and answers "already granted", so quota and cache
are reset exactly once. -/
theorem grant_idempotent (u : Nat) (s : BotState) :
    (buyAccessStep u (buyAccessStep u s).2).2 = (buyAccessStep u s).2
    ∧ (buyAccessStep u (buyAccessStep u s).2).1 = [alreadyPaidText]
    ∧ (s.paid u = true → buyAccessStep u s = ([alreadyPaidText], s))
    ∧ (s.paid u = false →
        (buyAccessStep u s).1 = [grantedText]
        ∧ (buyAccessStep u s).2.paid u = true
        ∧ (buyAccessStep u s).2.free u = none
        ∧ (buyAccessStep u s).2.cache u = none
        ∧ (buyAccessStep u s).2.lastReq = s.lastReq
        ∧ (buyAccessStep u s).2.session = s.session
        ∧ ∀ v, v ≠ u → (buyAccessStep u s).2.paid v = s.paid v
            ∧ (buyAccessStep u s).2.free v = s.free v
            ∧ (buyAccessStep u s).2.cache v = s.cache v) := by
  have of_paid : ∀ s2 : BotState, s2.paid u = true →
      buyAccessStep u s2 = ([alreadyPaidText], s2) := by
    intro s2 h
    unfold buyAccessStep
    rw [if_pos h]
  have of_unpaid : ∀ s2 : BotState, s2.paid u = false →
      buyAccessStep u s2 = ([grantedText],
        { s2 with paid := upd s2.paid u true, free := upd s2.free u none,
                  cache := upd s2.cache u none }) := by
    intro s2 h
    unfold buyAccessStep
    rw [if_neg (by simp [h])]
  have hpaid1 : (buyAccessStep u s).2.paid u = true := by
    by_cases hp : s.paid u = true
    · rw [of_paid s hp]; exact hp
    · rw [of_unpaid s (by simpa using hp)]; simp [upd]
  refine ⟨?_, ?_, ?_, ?_⟩
  · rw [of_paid _ hpaid1]
  · rw [of_paid _ hpaid1]
  · intro hp; exact of_paid s hp
  · intro hp
    rw [of_unpaid s hp]
    refine ⟨rfl, by simp [upd], by simp [upd], by simp [upd], rfl, rfl, ?_⟩
    intro v hv
    exact ⟨by simp [upd, hv], by simp [upd, hv], by simp [upd, hv]⟩

/-- Witness for C6 on the initial state. -/
theorem grant_idempotent_witness :
    (buyAccessStep 1 (buyAccessStep 1 initState).2).2 = (buyAccessStep 1 initState).2
    ∧ (buyAccessStep 1 initState).2.paid 1 = true :=
  ⟨(grant_idempotent 1 initState).1, ((grant_idempotent 1 initState).2.2.2 rfl).2.1⟩

/-! ## C9: stale preference answers are silently dropped -/

/-- C9: a health-answer callback arriving while the user's session is not in
`asking_health`, and a diet-answer callback arriving while it is not in
`asking_diet`, match no registered handler: they produce no output at all and
leave the whole state untouched. -/
theorem stale_answers_dropped (D : List Dish) (u : Nat) (now : Int)
    (nowHour : Nat) (s : BotState) (yes : Bool) (d : DietBtn) :
    ((s.session u).tag ≠ some FsmTag.askingHealth →
       dispatchCallback D (CallbackData.healthy yes) u now nowHour s = ([], s))
    ∧ ((s.session u).tag ≠ some FsmTag.askingDiet →
       dispatchCallback D (CallbackData.dietBtn d) u now nowHour s = ([], s)) := by
  constructor
  · intro h
    unfold dispatchCallback
    dsimp only
    rw [if_neg h]
  · intro h
    unfold dispatchCallback
    dsimp only
    rw [if_neg h]

/-- Witness for C9: on the initial state (no pending session) both stale
answers are no-ops. -/
theorem stale_answers_dropped_witness :
    dispatchCallback [] (CallbackData.healthy true) 1 0 8 initState
      = ([], initState)
    ∧ dispatchCallback [] (CallbackData.dietBtn DietBtn.meat) 1 0 8 initState
      = ([], initState) :=
  ⟨(stale_answers_dropped [] 1 0 8 initState true DietBtn.meat).1 (by decide),
   (stale_answers_dropped [] 1 0 8 initState true DietBtn.meat).2 (by decide)⟩

/-! ## C10: the free-attempt count never exceeds 1 -/

theorem hci_free (D : List Dish) (hour u : Nat) (now : Int) (s : BotState) :
    (handleCookingInternal D hour u now s).2.free = s.free
    ∨ (s.paid u = false ∧ getFree s u = 0 ∧
       (handleCookingInternal D hour u now s).2.free = upd s.free u (some 1)) := by
  rcases hb : isRateLimited u now s.lastReq with ⟨b, lr⟩
  unfold handleCookingInternal
  rw [hb]
  dsimp only
  cases b with
  | true => exact Or.inl rfl
  | false =>
    simp only [Bool.false_eq_true, if_false]
    split
    · exact Or.inl rfl
    · rename_i hng
      split
      · rename_i hpaid
        right
        have h0 : getFree s u = 0 := by
          have hpaid' : s.paid u = false := hpaid
          by_contra h
          exact hng ⟨hpaid', by
            show 1 ≤ getFree s u
            omega⟩
        refine ⟨hpaid, h0, ?_⟩
        rw [(afterQuota_frame D hour u now _).2.1]
        show upd s.free u (some (getFree s u + 1)) = upd s.free u (some 1)
        rw [h0]
      · exact Or.inl ((afterQuota_frame D hour u now _).2.1)

/-- C10: across every inbound event, each user's stored free-attempt count is
either left unchanged, set to 1 (and only for a non-entitled user whose
effective count was 0), or removed; hence if every stored count is at most 1
before a step, it is at most 1 after it. -/
theorem free_attempts_at_most_one (D : List Dish) (e : Event) (now : Int)
    (nowHour : Nat) (s : BotState) :
    (∀ v, (step D e now nowHour s).2.free v = s.free v
       ∨ (s.paid v = false ∧ getFree s v = 0 ∧
           (step D e now nowHour s).2.free v = some 1)
       ∨ (step D e now nowHour s).2.free v = none)
    ∧ ((∀ v n, s.free v = some n → n ≤ 1) →
       ∀ v n, (step D e now nowHour s).2.free v = some n → n ≤ 1) := by
  have tri : ∀ v, (step D e now nowHour s).2.free v = s.free v
       ∨ (s.paid v = false ∧ getFree s v = 0 ∧
           (step D e now nowHour s).2.free v = some 1)
       ∨ (step D e now nowHour s).2.free v = none := by
    have fromHci : ∀ (hour u : Nat) (s1 : BotState), s1.free = s.free →
        s1.paid = s.paid → ∀ v,
        (handleCookingInternal D hour u now s1).2.free v = s.free v
        ∨ (s.paid v = false ∧ getFree s v = 0 ∧
            (handleCookingInternal D hour u now s1).2.free v = some 1)
        ∨ (handleCookingInternal D hour u now s1).2.free v = none := by
      intro hour u s1 hfree hpaid v
      rcases hci_free D hour u now s1 with h | ⟨hp, h0, h⟩
      · left
        rw [congrFun h v, congrFun hfree v]
      · by_cases hv : v = u
        · subst hv
          right; left
          refine ⟨by rw [← congrFun hpaid v]; exact hp, ?_, ?_⟩
          · unfold getFree at h0 ⊢
            rw [← congrFun hfree v]
            exact h0
          · rw [congrFun h v]
            simp [upd]
        · left
          rw [congrFun h v]
          simp only [upd, if_neg hv]
          rw [congrFun hfree v]
      
    cases e with
    | msg u text =>
      unfold step
      dsimp only
      split
      · intro v; exact Or.inl rfl
      · exact fromHci _ u s rfl rfl
    | cb u cd =>
      unfold step dispatchCallback
      cases cd with
      | suggest b =>
        dsimp only
        exact fromHci _ u s rfl rfl
      | healthy yes =>
        dsimp only
        split
        · intro v
          unfold processHealth
          exact Or.inl rfl
        · intro v; exact Or.inl rfl
      | dietBtn d =>
        dsimp only
        split
        · unfold processDiet
          dsimp only
          exact fromHci _ u _ rfl rfl
        · intro v; exact Or.inl rfl
      | buyAccess =>
        dsimp only
        unfold buyAccessStep
        split
        · intro v; exact Or.inl rfl
        · intro v
          by_cases hv : v = u
          · subst hv
            right; right
            simp [upd]
          · left
            simp [upd, hv]
  refine ⟨tri, ?_⟩
  intro hinv v n h
  rcases tri v with h1 | ⟨_, _, h2⟩ | h3
  · rw [h1] at h
    exact hinv v n h
  · rw [h2] at h
    have : n = 1 := by
      have := Option.some.inj h
      omega
    omega
  · rw [h3] at h
    exact absurd h (by simp)

/-- Witness for C10: the first cooking request from a fresh user sets the
free-attempt count to 1, which respects the bound. -/
theorem free_attempts_at_most_one_witness :
    (step [] (Event.cb 1 (CallbackData.suggest SuggestBtn.breakfast)) 0 8
        initState).2.free 1 = some 1
    ∧ (1 : Nat) ≤ 1 :=
  ⟨by decide,
   (free_attempts_at_most_one [] (Event.cb 1 (CallbackData.suggest
       SuggestBtn.breakfast)) 0 8 initState).2
     (fun v n h => by simp [initState] at h) 1 1 (by decide)⟩

/-! ## C7: cache lookup semantics -/

/-- The three diet strings the handlers can store in the session (the keys
that can ever reach the cache-key builder). -/
def dietStrs : List Str := [chars "meat", chars "fish", chars "veg"]

theorem sepfree_prefix {c : Char} (A : Str) : ∀ (A' B B' : Str),
    (A ++ c :: B) <+: (A' ++ c :: B') → c ∉ A → c ∉ A' → A = A' ∧ B <+: B' := by
  induction A with
  | nil =>
    intro A' B B' hp hA hA'
    cases A' with
    | nil =>
      refine ⟨rfl, ?_⟩
      rw [List.nil_append, List.nil_append, List.cons_prefix_cons] at hp
      exact hp.2
    | cons a' A2 =>
      rw [List.nil_append, List.cons_append, List.cons_prefix_cons] at hp
      have hmem : c ∈ a' :: A2 := by
        rw [hp.1]
        exact List.mem_cons_self a' A2
      exact absurd hmem hA'
  | cons a A ih =>
    intro A' B B' hp hA hA'
    cases A' with
    | nil =>
      rw [List.cons_append, List.nil_append, List.cons_prefix_cons] at hp
      have hmem : c ∈ a :: A := by
        rw [← hp.1]
        exact List.mem_cons_self a A
      exact absurd hmem hA
    | cons a' A2 =>
      rw [List.cons_append, List.cons_append, List.cons_prefix_cons] at hp
      obtain ⟨hae, hp2⟩ := hp
      obtain ⟨heq, hBB⟩ := ih A2 B B' hp2
        (fun hm => hA (List.mem_cons_of_mem a hm))
        (fun hm => hA' (List.mem_cons_of_mem a' hm))
      exact ⟨by rw [hae, heq], hBB⟩

theorem natStr_no_und : ∀ h : Nat, h < 24 → '_' ∉ natStr h := by decide

theorem natStr_inj24 : ∀ h : Nat, h < 24 → ∀ h2 : Nat, h2 < 24 →
    natStr h = natStr h2 → h = h2 := by decide

theorem boolStr_no_und : ∀ b : Bool, '_' ∉ boolStr b := by decide

theorem boolStr_inj : ∀ b b2 : Bool, boolStr b = boolStr b2 → b = b2 := by decide

theorem prefix_head_eq (x y : Char) (xs ys rest : Str)
    (hp : (x :: xs) <+: ((y :: ys) ++ rest)) : x = y := by
  rw [List.cons_append, List.cons_prefix_cons] at hp
  exact hp.1

theorem diet_prefix_eq : ∀ d ∈ dietStrs, ∀ d2 ∈ dietStrs, ∀ rest : Str,
    d <+: d2 ++ rest → d = d2 := by
  intro d hd d2 hd2 rest hp
  fin_cases hd <;> fin_cases hd2 <;>
    first
      | rfl
      | exact absurd (prefix_head_eq _ _ _ _ _ hp) (by decide)

/-- A well-formed cache key that is a prefix of another well-formed cache key
followed by anything must agree with it on all three components. -/
theorem key_prefix_eq (h h2 : Nat) (b b2 : Bool) (d d2 : Str) (rest : Str)
    (hh : h < 24) (hh2 : h2 < 24) (hd : d ∈ dietStrs) (hd2 : d2 ∈ dietStrs)
    (hp : mkKey h b d <+: mkKey h2 b2 d2 ++ rest) :
    h = h2 ∧ b = b2 ∧ d = d2 := by
  unfold mkKey at hp
  simp only [List.append_assoc, List.singleton_append, List.cons_append] at hp
  obtain ⟨hA, hp2⟩ := sepfree_prefix (natStr h) (natStr h2) _ _ hp
    (natStr_no_und h hh) (natStr_no_und h2 hh2)
  obtain ⟨hB, hp3⟩ := sepfree_prefix (boolStr b) (boolStr b2) _ _ hp2
    (boolStr_no_und b) (boolStr_no_und b2)
  exact ⟨natStr_inj24 h hh h2 hh2 hA, boolStr_inj b b2 hB,
    diet_prefix_eq d hd d2 hd2 rest hp3⟩

theorem replaceFirst_append (c : Char) (p : Str) (r : Str) :
    replaceFirst ((c :: p) ++ r) (c :: p) = r := by
  rw [List.cons_append]
  unfold replaceFirst
  have hpre : (c :: p).isPrefixOf (c :: (p ++ r)) = true :=
    List.isPrefixOf_iff_prefix.mpr (by
      rw [← List.cons_append]
      exact List.prefix_append _ _)
  rw [if_pos hpre]
  show (p ++ r).drop p.length = r
  exact List.drop_left p r

/-- C7: for an entitled user's cache entry stored as
`"КЭШ:" + key(hour2, healthy2, diet2) + "||" + reply` at time `t`, a lookup
with key built from the exact hour, healthy flag and diet is a hit — and
returns the stored reply — precisely when all three key components match
exactly and less than 5 minutes (300 s) have passed; any different key or an
age of 5 minutes or more is a miss.  A store is a plain point update of the
user's single cache slot, overwriting any prior entry.  For a non-entitled
user the resolved flow skips the cache lookup entirely and leaves the cache
untouched. -/
theorem cache_semantics (h h2 : Nat) (b b2 : Bool) (d d2 reply : Str)
    (t now : Int) (hh : h < 24) (hh2 : h2 < 24)
    (hd : d ∈ dietStrs) (hd2 : d2 ∈ dietStrs) :
    (cacheProbe (mkStored h2 b2 d2 reply, t) (mkKey h b d) now =
      if h = h2 ∧ b = b2 ∧ d = d2 ∧ now - t < 300 then some reply else none)
    ∧ (∀ (c : Nat → Option (Str × Int)) (u : Nat) (v : Str × Int),
        upd c u (some v) u = some v)
    ∧ (∀ (D : List Dish) (hour u : Nat) (now2 : Int) (hl : Bool) (dt : Str)
        (s : BotState), s.paid u = false →
        resolvedReply D hour u now2 hl dt s = missReply D hour u now2 hl dt s
        ∧ (missReply D hour u now2 hl dt s).2.cache = s.cache) := by
  refine ⟨?_, ?_, ?_⟩
  · by_cases hkey : h = h2 ∧ b = b2 ∧ d = d2
    · obtain ⟨e1, e2, e3⟩ := hkey
      subst e1; subst e2; subst e3
      have hpre : (cacheMark ++ mkKey h b d).isPrefixOf (mkStored h b d reply)
          = true := by
        apply List.isPrefixOf_iff_prefix.mpr
        unfold mkStored
        rw [List.append_assoc, List.append_assoc, ← List.append_assoc cacheMark]
        exact List.prefix_append _ _
      by_cases htime : now - t < 300
      · rw [if_pos ⟨rfl, rfl, rfl, htime⟩]
        unfold cacheProbe
        rw [if_pos ⟨htime, hpre⟩]
        show some (replaceFirst (mkStored h b d reply)
          (cacheMark ++ mkKey h b d ++ strBars)) = some reply
        unfold mkStored
        rw [show cacheMark ++ mkKey h b d ++ strBars ++ reply =
            ('К' :: (chars "ЭШ:" ++ mkKey h b d ++ strBars)) ++ reply from by
          simp [cacheMark, chars, List.append_assoc]]
        rw [show cacheMark ++ mkKey h b d ++ strBars =
            'К' :: (chars "ЭШ:" ++ mkKey h b d ++ strBars) from by
          simp [cacheMark, chars, List.append_assoc]]
        rw [replaceFirst_append]
      · rw [if_neg (fun hc => htime hc.2.2.2)]
        unfold cacheProbe
        rw [if_neg (fun hc => htime hc.1)]
    · have hnp : ¬ (cacheMark ++ mkKey h b d) <+: mkStored h2 b2 d2 reply := by
        intro hp
        unfold mkStored at hp
        rw [List.append_assoc, List.append_assoc,
          List.prefix_append_right_inj] at hp
        exact hkey (key_prefix_eq h h2 b b2 d d2 _ hh hh2 hd hd2 hp)
      rw [if_neg (fun hc => hkey ⟨hc.1, hc.2.1, hc.2.2.1⟩)]
      unfold cacheProbe
      rw [if_neg (fun hc => hnp (List.isPrefixOf_iff_prefix.mp hc.2))]
  · intro c u v
    simp [upd]
  · intro D hour u now2 hl dt s hunpaid
    constructor
    · unfold resolvedReply
      rw [if_neg (by simp [hunpaid])]
    · unfold missReply
      dsimp only
      rw [if_neg (by simp [hunpaid])]

/-- Witness for C7: a hit at 299 seconds with the identical key. -/
theorem cache_semantics_witness :
    cacheProbe (mkStored 13 true (chars "meat") (chars "ok"), 0)
        (mkKey 13 true (chars "meat")) 299 =
      if (13 : Nat) = 13 ∧ true = true ∧ chars "meat" = chars "meat"
          ∧ (299 : Int) - 0 < 300 then some (chars "ok") else none :=
  (cache_semantics 13 13 true true (chars "meat") (chars "meat") (chars "ok")
    0 299 (by decide) (by decide) (by decide) (by decide)).1

/-! ## C2: the preference-elicitation replay for a free user -/

/-- A catalog with breakfast dishes matching healthy=false, diet=meat, so the
scenario's expected recommendation exists. -/
def sampleDishes : List Dish :=
  [⟨chars "Яичница с беконом", chars "Пожарьте бекон и яйца.", chars "breakfast",
     false, chars "meat"⟩,
   ⟨chars "Овсянка", chars "Сварите овсянку.", chars "breakfast", true,
     chars "veg"⟩,
   ⟨chars "Сырники", chars "Обжарьте сырники.", chars "breakfast", false,
     chars "veg"⟩,
   ⟨chars "Борщ", chars "Сварите борщ.", chars "lunch", false, chars "meat"⟩]

/-- State after the fresh user 1 requests a breakfast suggestion at time 0. -/
def c2AfterRequest : BotState :=
  (step sampleDishes (Event.cb 1 (CallbackData.suggest SuggestBtn.breakfast))
    0 8 initState).2

/-- State after the user answers the health question with "no" at time 10. -/
def c2AfterHealth : BotState :=
  (step sampleDishes (Event.cb 1 (CallbackData.healthy false)) 10 8
    c2AfterRequest).2

/-- C2 exhibits a code bug: a fresh non-entitled user asks for a breakfast
suggestion (hour 8), is asked the health question, answers "no" and then
"meat" — and the replayed core flow answers with the mustPay upsell prompt
instead of the promised ≤3 breakfast dishes, because the elicitation request
itself consumed the single free attempt.  The expected recommendation both
exists in the catalog and differs from what is sent. -/
theorem free_user_replay_hits_paywall :
    (step sampleDishes (Event.cb 1 (CallbackData.suggest SuggestBtn.breakfast))
        0 8 initState).1 = [healthQText]
    ∧ c2AfterRequest.free 1 = some 1
    ∧ (step sampleDishes (Event.cb 1 (CallbackData.healthy false)) 10 8
        c2AfterRequest).1 = [dietQText]
    ∧ (step sampleDishes (Event.cb 1 (CallbackData.dietBtn DietBtn.meat)) 70 8
        c2AfterHealth).1 = [upsellText]
    ∧ filter_dishes sampleDishes 8 false (chars "meat") ≠ []
    ∧ upsellText ≠
        renderReply (filter_dishes sampleDishes 8 false (chars "meat"))
          ++ upsellSuffix := by
  decide
